import Mathlib

/-!
Shallow embedding of the IPA subdomain-discovery module
(`src/providers/ipa/ipa_subdomains.c`) and proofs about it.

Modelling conventions:
* `sysdb_attrs` objects are modelled as records of optional attribute values
  (`sysdb_attrs_get_string` / `sysdb_attrs_get_uint32_t` return the value when
  the attribute is present and fail with `ENOENT` otherwise).
* talloc allocation is modelled as infallible; the `ENOMEM` paths of the C
  code are therefore unreachable in the model.
* A freed-but-still-stored pointer (as produced by the
  `talloc_free(discard_const(subdom->id))` path of `ipa_subdom_parse`) is
  modelled as the field keeping its previous value: the C code keeps the
  dangling pointer in the structure and never reassigns it on that path.
* Machine integers (`uint32_t` range attributes) are modelled as `Nat`;
  `time_t` timestamps are modelled as `Int` so that the C arithmetic
  `now - IPA_SUBDOMAIN_REFRESH_LIMIT` keeps its signed semantics.
* The asynchronous tevent callback chain is modelled as a terminating
  interpreter over an environment of collaborator results; every call to
  `ipa_subdomains_reply` (i.e. `be_req->fn`) is recorded in a trace, so that
  "the completion callback fires exactly once" is the provable statement
  `trace.replies.length = 1`, not something true by construction.
-/

deriving instance DecidableEq for Except

/-- Error numbers used by the module. `eok` is `EOK` (0). -/
inductive Errno where
  | eok
  | enoent
  | einval
  | enomem
  | eio
  | efault
  deriving DecidableEq, Repr

/-- Data-provider error levels passed to `be_req->fn` (`DP_ERR_OK`,
`DP_ERR_OFFLINE`, `DP_ERR_FATAL`). -/
inductive DpErr where
  | dpOk
  | dpOffline
  | dpFatal
  deriving DecidableEq, Repr

/-- Attributes of one raw directory search result (`struct sysdb_attrs`),
restricted to the attributes this module requests: `cn`, `ipaNTFlatName`,
`ipaNTSecurityIdentifier`, `ipaNTTrustedDomainSID` and the four numeric
range attributes.  `none` means the attribute is absent. -/
structure SysdbAttrs where
  cn : Option String := none
  flatName : Option String := none
  sid : Option String := none
  trustedDomSid : Option String := none
  baseId : Option Nat := none
  idRangeSize : Option Nat := none
  baseRid : Option Nat := none
  secondaryBaseRid : Option Nat := none
  deriving DecidableEq, Repr

/-- One cached subdomain record (`struct sysdb_subdom`): all four fields are
`char *` pointers that may be `NULL` (modelled as `none`). -/
structure SysdbSubdom where
  name : Option String := none
  realm : Option String := none
  flat_name : Option String := none
  id : Option String := none
  deriving DecidableEq, Repr

/-- One parsed ID-range record (`struct range_info`).  `name` is always set
on success; the numeric fields default to zero (`talloc_zero`) and
`trusted_dom_sid` stays unset when the attribute is absent. -/
structure RangeInfo where
  name : String
  trusted_dom_sid : Option String := none
  base_id : Nat := 0
  id_range_size : Nat := 0
  base_rid : Nat := 0
  secondary_base_rid : Nat := 0
  deriving DecidableEq, Repr

/-- Embedding of `ipa_ranges_parse_results` (ipa_subdomains.c:79).  The C
loop builds one `range_info` per reply entry, in input order; a missing
`cn` attribute aborts the whole parse with the `sysdb_attrs_get_string`
error (`ENOENT`) and the partially built list is freed.  The optional
numeric attributes leave the `talloc_zero`-initialised zero in place when
absent, and a missing `ipaNTTrustedDomainSID` leaves that field unset. -/
def ipa_ranges_parse_results : List SysdbAttrs → Except Errno (List RangeInfo)
  | [] => .ok []
  | a :: rest =>
    match a.cn with
    | none => .error .enoent
    | some n =>
      match ipa_ranges_parse_results rest with
      | .error e => .error e
      | .ok l =>
        .ok ({ name := n,
               trusted_dom_sid := a.trustedDomSid,
               base_id := a.baseId.getD 0,
               id_range_size := a.idRangeSize.getD 0,
               base_rid := a.baseRid.getD 0,
               secondary_base_rid := a.secondaryBaseRid.getD 0 } :: l)

/-- Embedding of `name_to_realm` (ipa_subdomains.c:170): the realm is the
domain name uppercased character by character (`toupper` is modelled as
`Char.toUpper`). -/
def name_to_realm (name : String) : String :=
  ⟨name.data.map Char.toUpper⟩

/-- Embedding of `ipa_subdom_parse` (ipa_subdomains.c:186).  The function
updates `subdom` in place from `attrs`; the model threads the record
through the same sequence of conditional assignments the C performs.

The step that handles a changed `ipaNTTrustedDomainSID`
(ipa_subdomains.c:248) frees `subdom->id` but then assigns `NULL` to
`subdom->flat_name` (line 253), not to `subdom->id`; consequently the
stored `id` pointer is never reassigned on that path (it keeps its old
value, now dangling) and the just-updated flat name is lost.  The model
reproduces exactly that. -/
def subdom_set_realm (s : SysdbSubdom) : SysdbSubdom :=
  match s.realm with
  | none => { s with realm := s.name.map name_to_realm }
  | some _ => s

/-- Flat-name block of `ipa_subdom_parse` (ipa_subdomains.c:223-238): a
present-but-different flat name is first reset to `NULL` (logged, not
rejected), and a `NULL` flat name is then set to the fetched value. -/
def subdom_set_flat (fv : String) (s : SysdbSubdom) : SysdbSubdom :=
  let s2 : SysdbSubdom :=
    match s.flat_name with
    | some old => if old = fv then s else { s with flat_name := none }
    | none => s
  match s2.flat_name with
  | none => { s2 with flat_name := some fv }
  | some _ => s2

/-- Identifier block of `ipa_subdom_parse` (ipa_subdomains.c:246-261).
When the stored id is present and differs from the fetched value the C
frees `subdom->id` but assigns `NULL` to `subdom->flat_name`
(ipa_subdomains.c:253), not to `subdom->id`; the stored `id` pointer is
never reassigned on that path (it keeps its old value, now dangling) and
the just-updated flat name is lost.  The model reproduces exactly that,
representing the dangling pointer by its previous value. -/
def subdom_set_id (iv : String) (s : SysdbSubdom) : SysdbSubdom :=
  let s4 : SysdbSubdom :=
    match s.id with
    | some old => if old = iv then s else { s with flat_name := none }
    | none => s
  match s4.id with
  | none => { s4 with id := some iv }
  | some _ => s4

/-- Continuation of `ipa_subdom_parse` after the name check
(ipa_subdomains.c:208-263): realm derivation, then the flat-name update
(requires `ipaNTFlatName` to be present) and the id update (requires
`ipaNTTrustedDomainSID` to be present). -/
def ipa_subdom_parse_rest (attrs : SysdbAttrs) (s0 : SysdbSubdom) :
    Except Errno SysdbSubdom :=
  let s1 := subdom_set_realm s0
  match attrs.flatName with
  | none => .error .enoent
  | some fv =>
    let s3 := subdom_set_flat fv s1
    match attrs.trustedDomSid with
    | none => .error .enoent
    | some iv => .ok (subdom_set_id iv s3)

/-- Embedding of `ipa_subdom_parse` (ipa_subdomains.c:186): name check
(a missing `cn` fails; a present name different from `cn` fails with
`EINVAL`, "subdomain name mismatch"), then realm/flat-name/id updates. -/
def ipa_subdom_parse (attrs : SysdbAttrs) (subdom : SysdbSubdom) :
    Except Errno SysdbSubdom :=
  match attrs.cn with
  | none => .error .enoent
  | some value =>
    match subdom.name with
    | some n =>
      if n = value then ipa_subdom_parse_rest attrs subdom
      else .error .einval
    | none => ipa_subdom_parse_rest attrs { subdom with name := some value }

/-- Inner scan of `ipa_subdomains_refresh` (ipa_subdomains.c:280-292): walk
the reply entries paired with their `handled` flags, skipping handled ones,
reading `cn` of each unhandled one (a missing `cn` fails the whole refresh)
until one equals `name`; that entry's flag is set (`handled[c] = true`).
Returns the matched entry (if any) together with the updated flag list. -/
def subdom_reply_scan (name : String) :
    List (SysdbAttrs × Bool) →
    Except Errno (Option SysdbAttrs × List (SysdbAttrs × Bool))
  | [] => .ok (none, [])
  | (a, true) :: rest =>
    match subdom_reply_scan name rest with
    | .error e => .error e
    | .ok (m, rest1) => .ok (m, (a, true) :: rest1)
  | (a, false) :: rest =>
    match a.cn with
    | none => .error .enoent
    | some v =>
      if v = name then .ok (some a, (a, true) :: rest)
      else
        match subdom_reply_scan name rest with
        | .error e => .error e
        | .ok (m, rest1) => .ok (m, (a, false) :: rest1)

/-- Outer loop of `ipa_subdomains_refresh` (ipa_subdomains.c:279-311): for
each cached subdomain in order, scan the reply for an unhandled entry with
the same name.  No match: the cached entry is removed (the C shifts the
following entries down, preserving their order).  Match: the entry is
updated in place via `ipa_subdom_parse` and the reply entry is consumed.
A cached entry whose `name` pointer is `NULL` would make the C pass `NULL`
to `strcmp` (undefined behaviour); cache entries always carry a name, and
the model makes that path a distinguished `EFAULT` error. -/
def subdoms_refresh_loop :
    List SysdbSubdom → List (SysdbAttrs × Bool) →
    Except Errno (List SysdbSubdom × List (SysdbAttrs × Bool))
  | [], pairs => .ok ([], pairs)
  | s :: rest, pairs =>
    match s.name with
    | none => .error .efault
    | some n =>
      match subdom_reply_scan n pairs with
      | .error e => .error e
      | .ok (none, pairs1) => subdoms_refresh_loop rest pairs1
      | .ok (some a, pairs1) =>
        match ipa_subdom_parse a s with
        | .error e => .error e
        | .ok s1 =>
          match subdoms_refresh_loop rest pairs1 with
          | .error e => .error e
          | .ok (survivors, pairs2) => .ok (s1 :: survivors, pairs2)

/-- Append phase of `ipa_subdomains_refresh` (ipa_subdomains.c:332-344):
every reply entry that was not consumed by the update loop is parsed into a
zero-initialised `sysdb_subdom` and appended to the cache, in reply
order. -/
def subdoms_refresh_append (pairs : List (SysdbAttrs × Bool)) :
    Except Errno (List SysdbSubdom) :=
  (pairs.filter (fun p => !p.2)).mapM
    (fun p => ipa_subdom_parse p.1 {})

/-- Core of `ipa_subdomains_refresh` (ipa_subdomains.c:266-346), before the
`done:` bookkeeping: returns the new cache contents and the value the C
left in `*changes`, or the error together with the `*changes` value written
so far (the C only ever sets it to `true`, and only after the update loop
found unconsumed reply entries; the caller initialises it to `changes0 =
false`).  `count == h` in the C is exactly "every reply entry was
consumed". -/
def subdoms_refresh_core (subdoms : List SysdbSubdom) (reply : List SysdbAttrs)
    (changes0 : Bool) :
    Except (Errno × Bool) (List SysdbSubdom × Bool) :=
  match subdoms_refresh_loop subdoms (reply.map (fun a => (a, false))) with
  | .error e => .error (e, changes0)
  | .ok (survivors, pairs) =>
    if pairs.all (fun p => p.2) then .ok (survivors, changes0)
    else
      match subdoms_refresh_append pairs with
      | .error e => .error (e, true)
      | .ok appended => .ok (survivors ++ appended, true)

/-- Backend-wide subdomain context (`struct ipa_subdomains_ctx`): the cached
subdomain list and the refresh-gate timestamp.  The three search-base lists
live in `IpaConfig`. -/
structure IpaSubdomainsCtx where
  last_refreshed : Int
  subdoms : List SysdbSubdom
  deriving DecidableEq, Repr

/-- Embedding of `ipa_subdomains_refresh` including its `done:` block
(ipa_subdomains.c:348-357): on any failure the gate timestamp is reset to
`0`, `num_subdoms` is zeroed and the array freed; on success the timestamp
is set to the current time (`time(NULL)`, passed in as `now`).  Returns the
updated context, the `*changes` output and the returned `errno_t`. -/
def ipa_subdomains_refresh (ctx : IpaSubdomainsCtx) (reply : List SysdbAttrs)
    (changes0 : Bool) (now : Int) : IpaSubdomainsCtx × Bool × Errno :=
  match subdoms_refresh_core ctx.subdoms reply changes0 with
  | .ok (l, ch) => ({ ctx with last_refreshed := now, subdoms := l }, ch, .eok)
  | .error (e, ch) => ({ ctx with last_refreshed := 0, subdoms := [] }, ch, e)

/-- One configured search base (`struct sdap_search_base`): DN, scope and an
optional extra filter.  The module only dereferences the entries, so the
field values are carried for fidelity but never inspected by the model. -/
structure SearchBase where
  basedn : String := ""
  scope : Nat := 0
  filter : Option String := none
  deriving DecidableEq, Repr

/-- The three search-base lists the module receives from `ipa_subdom_init`
(`ctx->search_bases`, `ctx->master_search_bases`,
`ctx->ranges_search_bases`).  The C arrays are `NULL`-terminated; they are
modelled as lists. -/
structure IpaConfig where
  search_bases : List SearchBase
  master_search_bases : List SearchBase
  ranges_search_bases : List SearchBase
  deriving DecidableEq, Repr

/-- Request stages (`enum ipa_subdomains_req_type`):
`IPA_SUBDOMAINS_MASTER`, `IPA_SUBDOMAINS_SLAVE`, `IPA_SUBDOMAINS_RANGES`. -/
inductive IpaReqType where
  | master
  | slave
  | ranges
  deriving DecidableEq, Repr

/-- One completion report: the `dp_err` and `result` arguments of
`ipa_subdomains_reply` (ipa_subdomains.c:74), i.e. of `be_req->fn`. -/
structure Reply where
  dp_err : DpErr
  result : Errno
  deriving DecidableEq, Repr

/-- Observable trace of one discovery run: every issued directory search
(stage and search-base index), every persistence call
(`sysdb_update_subdomains`, `sysdb_update_ranges`,
`sysdb_master_domain_add_info`) with its payload, and every completion
report. -/
structure Trace where
  searches : List (IpaReqType × Nat) := []
  subdom_stores : List (List SysdbSubdom) := []
  range_stores : List (List RangeInfo) := []
  master_stores : List SysdbSubdom := []
  replies : List Reply := []
  deriving DecidableEq, Repr

def Trace.addSearch (tr : Trace) (s : IpaReqType × Nat) : Trace :=
  { tr with searches := tr.searches ++ [s] }

def Trace.addSubdomStore (tr : Trace) (l : List SysdbSubdom) : Trace :=
  { tr with subdom_stores := tr.subdom_stores ++ [l] }

def Trace.addRangeStore (tr : Trace) (l : List RangeInfo) : Trace :=
  { tr with range_stores := tr.range_stores ++ [l] }

def Trace.addMasterStore (tr : Trace) (s : SysdbSubdom) : Trace :=
  { tr with master_stores := tr.master_stores ++ [s] }

def Trace.addReply (tr : Trace) (r : Reply) : Trace :=
  { tr with replies := tr.replies ++ [r] }

/-- Results of the external collaborators, fixed for one run:
`sdap_id_op_connect_recv` (errno plus the `dp_error` it reports), the
directory search per stage and search-base index, the return codes of the
sysdb persistence calls, and the persisted master-domain info read back by
`sysdb_master_domain_get_info`.  `now` is `time(NULL)`; `dom_name` is the
backend domain's own name, used by the modelled
`sysdb_master_domain_add_info`. -/
structure Env where
  now : Int
  dom_name : String
  connect : Except (DpErr × Errno) Unit
  search : IpaReqType → Nat → Except Errno (List SysdbAttrs)
  update_subdomains : Errno
  update_ranges : Errno
  master_get_info : Except Errno SysdbSubdom
  master_add_info : Errno

/-- Modelled from the spec: `sysdb_master_domain_add_info` is not among the
sources under review (only its caller is).  Per the spec, persisting Master
Domain Info stores the flat name and identifier of the supplied record and
fills the `name` field from the backend context's domain name. -/
def sysdb_master_domain_add_info (domName : String) (info : SysdbSubdom) :
    SysdbSubdom :=
  { info with name := some domName }

/-- `IPA_SUBDOMAIN_REFRESH_LIMIT` (ipa_subdomains.c:46). -/
def IPA_SUBDOMAIN_REFRESH_LIMIT : Int := 5

/-- Master-domain stage (`ipa_subdomains_handler_master_done`,
ipa_subdomains.c:698, together with the `ipa_subdomains_handler_get` calls
that drive it).  The remaining search-base list is walked in order; an
empty result set advances the cursor; the first non-empty result set has
flat name and SID extracted from its first entry and persisted, after which
the run replies.  Exhausting the list replies `EIO`
("Master domain record not found!"). -/
def ipa_subdomains_master_flow (env : Env) (idx : Nat) :
    List SearchBase → Trace → Trace
  | [], tr => tr.addReply ⟨.dpFatal, .eio⟩
  | _ :: rest, tr =>
    let tr1 := tr.addSearch (.master, idx)
    match env.search .master idx with
    | .error e => tr1.addReply ⟨.dpFatal, e⟩
    | .ok [] => ipa_subdomains_master_flow env (idx + 1) rest tr1
    | .ok (r0 :: _) =>
      match r0.flatName with
      | none => tr1.addReply ⟨.dpFatal, .enoent⟩
      | some fv =>
        match r0.sid with
        | none => tr1.addReply ⟨.dpFatal, .enoent⟩
        | some sv =>
          let info : SysdbSubdom := { flat_name := some fv, id := some sv }
          let tr2 := tr1.addMasterStore
            (sysdb_master_domain_add_info env.dom_name info)
          let ret := env.master_add_info
          tr2.addReply ⟨if ret = .eok then .dpOk else .dpFatal, ret⟩

/-- Ranges stage and what follows it (`ipa_subdomains_handler_done` from
line 609 plus `ipa_subdomains_handler_ranges_done`, ipa_subdomains.c:627).
With no ranges search base configured the run fails with `EINVAL`
("No search base for ranges available.").  Otherwise exactly one search is
issued, against ranges search base 0; `ipa_subdomains_handler_ranges_done`
parses that single search's results (it never advances the cursor or
issues another ranges search), persists them, reads the master-domain
info, and either finishes with success or enters the master stage when
some master-info field is missing.  An empty master search-base list makes
`ipa_subdomains_handler_get` return `EOK`, which falls through to the
`done:` label and reports success. -/
def ipa_subdomains_ranges_flow (env : Env) (cfg : IpaConfig) (tr : Trace) :
    Trace :=
  match cfg.ranges_search_bases with
  | [] => tr.addReply ⟨.dpFatal, .einval⟩
  | _ :: _ =>
    let tr1 := tr.addSearch (.ranges, 0)
    match env.search .ranges 0 with
    | .error e => tr1.addReply ⟨.dpFatal, e⟩
    | .ok reply =>
      match ipa_ranges_parse_results reply with
      | .error e => tr1.addReply ⟨.dpFatal, e⟩
      | .ok range_list =>
        let tr2 := tr1.addRangeStore range_list
        if env.update_ranges = .eok then
          match env.master_get_info with
          | .error e => tr2.addReply ⟨.dpFatal, e⟩
          | .ok domain_info =>
            if domain_info.flat_name = none ∨ domain_info.id = none ∨
                domain_info.name = none then
              match cfg.master_search_bases with
              | [] => tr2.addReply ⟨.dpOk, .eok⟩
              | b :: rest => ipa_subdomains_master_flow env 0 (b :: rest) tr2
            else tr2.addReply ⟨.dpOk, .eok⟩
        else tr2.addReply ⟨.dpFatal, env.update_ranges⟩

/-- Slave-domains stage (`ipa_subdomains_handler_done`,
ipa_subdomains.c:547): each completed search's results are appended to the
accumulated reply and the cursor advances; a search failure replies
`DP_ERR_FATAL` with the search's errno.  When the cursor exhausts the list
the accumulated reply is reconciled via `ipa_subdomains_refresh`; on
changes the new snapshot is persisted with `sysdb_update_subdomains`
(failure is fatal); then control moves to the ranges stage with the cursor
reset to 0.  All replies issued from this callback use `DP_ERR_FATAL`
(ipa_subdomains.c:623). -/
def ipa_subdomains_slave_flow (env : Env) (cfg : IpaConfig)
    (sd : IpaSubdomainsCtx) (idx : Nat) (acc : List SysdbAttrs) :
    List SearchBase → Trace → IpaSubdomainsCtx × Trace
  | [], tr =>
    match ipa_subdomains_refresh sd acc false env.now with
    | (sd1, refresh_has_changes, ret) =>
      if ret = .eok then
        if refresh_has_changes then
          let tr1 := tr.addSubdomStore sd1.subdoms
          if env.update_subdomains = .eok then
            (sd1, ipa_subdomains_ranges_flow env cfg tr1)
          else (sd1, tr1.addReply ⟨.dpFatal, env.update_subdomains⟩)
        else (sd1, ipa_subdomains_ranges_flow env cfg tr)
      else (sd1, tr.addReply ⟨.dpFatal, ret⟩)
  | _ :: rest, tr =>
    let tr1 := tr.addSearch (.slave, idx)
    match env.search .slave idx with
    | .error e => (sd, tr1.addReply ⟨.dpFatal, e⟩)
    | .ok results =>
      ipa_subdomains_slave_flow env cfg sd (idx + 1) (acc ++ results) rest tr1

/-- Embedding of one whole discovery run: `ipa_subdomains_handler`
(ipa_subdomains.c:401) plus the callback chain it starts.  The refresh
gate (`last_refreshed > now - IPA_SUBDOMAIN_REFRESH_LIMIT`) short-circuits
with a success reply.  A connection failure replies with the `dp_error`
reported by `sdap_id_op_connect_recv`.  After a successful connection,
`ipa_subdomains_get_conn_done` calls `ipa_subdomains_handler_get` for the
slave stage: with an empty slave search-base list that call returns `EOK`
and `ipa_subdomains_get_conn_done` merely returns (ipa_subdomains.c:495)
-- no search is scheduled and no reply is ever issued, which the model
renders as a trace with no reply. -/
def ipa_subdomains_handler (cfg : IpaConfig) (env : Env)
    (sd : IpaSubdomainsCtx) : IpaSubdomainsCtx × Trace :=
  if sd.last_refreshed > env.now - IPA_SUBDOMAIN_REFRESH_LIMIT then
    (sd, Trace.addReply {} ⟨.dpOk, .eok⟩)
  else
    match env.connect with
    | .error (dp, e) => (sd, Trace.addReply {} ⟨dp, e⟩)
    | .ok _ =>
      match cfg.search_bases with
      | [] => (sd, {})
      | b :: rest => ipa_subdomains_slave_flow env cfg sd 0 [] (b :: rest) {}

/-! ## Lemmas about the reconciler -/

theorem subdom_set_realm_name (s : SysdbSubdom) :
    (subdom_set_realm s).name = s.name := by
  unfold subdom_set_realm
  split <;> rfl

theorem subdom_set_flat_name (fv : String) (s : SysdbSubdom) :
    (subdom_set_flat fv s).name = s.name := by
  obtain ⟨nm, re, fl, idv⟩ := s
  cases fl with
  | none => rfl
  | some old =>
    by_cases hov : old = fv <;> simp [subdom_set_flat, hov]

theorem subdom_set_id_name (iv : String) (s : SysdbSubdom) :
    (subdom_set_id iv s).name = s.name := by
  obtain ⟨nm, re, fl, idv⟩ := s
  cases idv with
  | none => rfl
  | some old =>
    by_cases hov : old = iv <;> simp [subdom_set_id, hov]

theorem ipa_subdom_parse_rest_name (attrs : SysdbAttrs) (s s1 : SysdbSubdom)
    (h : ipa_subdom_parse_rest attrs s = .ok s1) : s1.name = s.name := by
  unfold ipa_subdom_parse_rest at h
  split at h
  · simp at h
  · split at h
    · simp at h
    · simp only [Except.ok.injEq] at h
      subst h
      rw [subdom_set_id_name, subdom_set_flat_name, subdom_set_realm_name]

/-- After a successful `ipa_subdom_parse`, the record's name equals the
reply entry's `cn` (which is therefore present): a fresh record gets the
`cn` as its name, and an existing record passed the `strcmp` check. -/
theorem ipa_subdom_parse_name (attrs : SysdbAttrs) (s s1 : SysdbSubdom)
    (h : ipa_subdom_parse attrs s = .ok s1) : s1.name = attrs.cn := by
  unfold ipa_subdom_parse at h
  split at h
  · simp at h
  · rename_i value heq
    split at h
    · rename_i n heq2
      split at h
      · rename_i hnv
        rw [ipa_subdom_parse_rest_name attrs s s1 h, heq2, heq, hnv]
      · simp at h
    · rename_i heq2
      rw [ipa_subdom_parse_rest_name attrs _ s1 h, heq]

/-- Reply entries not yet consumed by the update loop, projected to their
`cn` attributes. -/
def unhandled_cns (pairs : List (SysdbAttrs × Bool)) : List (Option String) :=
  (pairs.filter (fun p => !p.2)).map (fun p => p.1.cn)

theorem unhandled_cns_nil : unhandled_cns [] = [] := rfl

theorem unhandled_cns_cons_true (a : SysdbAttrs)
    (rest : List (SysdbAttrs × Bool)) :
    unhandled_cns ((a, true) :: rest) = unhandled_cns rest := by
  simp [unhandled_cns]

theorem unhandled_cns_cons_false (a : SysdbAttrs)
    (rest : List (SysdbAttrs × Bool)) :
    unhandled_cns ((a, false) :: rest) = a.cn :: unhandled_cns rest := by
  simp [unhandled_cns]

theorem subdom_reply_scan_no_match (n : String) :
    ∀ (pairs pairs1 : List (SysdbAttrs × Bool)),
    subdom_reply_scan n pairs = .ok (none, pairs1) → pairs1 = pairs
  | [], pairs1, h => by
    simp only [subdom_reply_scan, Except.ok.injEq, Prod.mk.injEq] at h
    exact h.2.symm
  | (a, true) :: rest, pairs1, h => by
    unfold subdom_reply_scan at h
    split at h
    · simp at h
    · rename_i m rest1 hs
      simp only [Except.ok.injEq, Prod.mk.injEq] at h
      obtain ⟨hm, hr⟩ := h
      subst hm
      rw [← hr, subdom_reply_scan_no_match n rest rest1 hs]
  | (a, false) :: rest, pairs1, h => by
    unfold subdom_reply_scan at h
    split at h
    · simp at h
    · split at h
      · simp at h
      · split at h
        · simp at h
        · rename_i m rest1 hs
          simp only [Except.ok.injEq, Prod.mk.injEq] at h
          obtain ⟨hm, hr⟩ := h
          subst hm
          rw [← hr, subdom_reply_scan_no_match n rest rest1 hs]

/-- A successful scan that finds a match consumes exactly one unhandled
entry whose `cn` is the searched name; up to permutation the unconsumed
`cn` values lose exactly that one occurrence. -/
theorem subdom_reply_scan_match (n : String) :
    ∀ (pairs : List (SysdbAttrs × Bool)) (a : SysdbAttrs)
      (pairs1 : List (SysdbAttrs × Bool)),
    subdom_reply_scan n pairs = .ok (some a, pairs1) →
    a.cn = some n ∧
      List.Perm (unhandled_cns pairs) (a.cn :: unhandled_cns pairs1)
  | [], a, pairs1, h => by
    simp [subdom_reply_scan] at h
  | (b, true) :: rest, a, pairs1, h => by
    unfold subdom_reply_scan at h
    split at h
    · simp at h
    · rename_i m rest1 hs
      simp only [Except.ok.injEq, Prod.mk.injEq] at h
      obtain ⟨hm, hr⟩ := h
      subst hm
      obtain ⟨ha, hp⟩ := subdom_reply_scan_match n rest a rest1 hs
      rw [← hr, unhandled_cns_cons_true, unhandled_cns_cons_true]
      exact ⟨ha, hp⟩
  | (b, false) :: rest, a, pairs1, h => by
    unfold subdom_reply_scan at h
    split at h
    · simp at h
    · rename_i v hc
      split at h
      · rename_i hv
        simp only [Except.ok.injEq, Prod.mk.injEq, Option.some.injEq] at h
        obtain ⟨hm, hr⟩ := h
        subst hm
        rw [← hr, unhandled_cns_cons_false, unhandled_cns_cons_true]
        subst hv
        exact ⟨hc, List.Perm.refl _⟩
      · split at h
        · simp at h
        · rename_i m rest1 hs
          simp only [Except.ok.injEq, Prod.mk.injEq] at h
          obtain ⟨hm, hr⟩ := h
          subst hm
          obtain ⟨ha, hp⟩ := subdom_reply_scan_match n rest a rest1 hs
          rw [← hr, unhandled_cns_cons_false, unhandled_cns_cons_false]
          exact ⟨ha, (List.Perm.cons _ hp).trans (List.Perm.swap _ _ _)⟩

/-- Through the update loop, the multiset of `cn` values of consumed reply
entries is exactly the multiset of names of the surviving (updated) cached
entries: matched entries always survive, removed entries consume
nothing. -/
theorem subdoms_refresh_loop_perm :
    ∀ (subs : List SysdbSubdom) (pairs survivors_pairs2 : List (SysdbAttrs × Bool))
      (survivors : List SysdbSubdom),
    subdoms_refresh_loop subs pairs = .ok (survivors, survivors_pairs2) →
    List.Perm (unhandled_cns pairs)
      (survivors.map SysdbSubdom.name ++ unhandled_cns survivors_pairs2)
  | [], pairs, pairs2, survivors, h => by
    simp only [subdoms_refresh_loop, Except.ok.injEq, Prod.mk.injEq] at h
    obtain ⟨hs, hp⟩ := h
    subst hs hp
    simp
  | s :: rest, pairs, pairs2, survivors, h => by
    unfold subdoms_refresh_loop at h
    split at h
    · simp at h
    · rename_i n hn
      split at h
      · simp at h
      · rename_i pairs1 hs
        exact subdom_reply_scan_no_match n pairs pairs1 hs ▸
          subdoms_refresh_loop_perm rest pairs1 pairs2 survivors h
      · rename_i a pairs1 hs
        split at h
        · simp at h
        · rename_i s1 hparse
          split at h
          · simp at h
          · rename_i surv1 pairs2x hloop
            simp only [Except.ok.injEq, Prod.mk.injEq] at h
            obtain ⟨hsv, hpp⟩ := h
            subst hsv hpp
            obtain ⟨ha, hperm⟩ := subdom_reply_scan_match n pairs a pairs1 hs
            have hip := subdoms_refresh_loop_perm rest pairs1 pairs2x surv1 hloop
            have hname := ipa_subdom_parse_name a s s1 hparse
            refine hperm.trans ?_
            simp only [List.map_cons, hname, List.cons_append]
            exact List.Perm.cons _ hip

/-- The append phase turns exactly the unconsumed reply entries into new
records, in order, each named by its entry's `cn`. -/
theorem mapM_parse_names :
    ∀ (l : List (SysdbAttrs × Bool)) (out : List SysdbSubdom),
    l.mapM (fun p => ipa_subdom_parse p.1 {}) = .ok out →
    out.map SysdbSubdom.name = l.map (fun p => p.1.cn)
  | [], out, h => by
    simp only [List.mapM_nil, pure, Except.pure, Except.ok.injEq] at h
    subst h
    rfl
  | p :: rest, out, h => by
    rw [List.mapM_cons] at h
    cases hp : ipa_subdom_parse p.1 {} with
    | error e =>
      rw [hp] at h
      simp [bind, Except.bind] at h
    | ok s1 =>
      rw [hp] at h
      cases hm : rest.mapM (fun p => ipa_subdom_parse p.1 {}) with
      | error e =>
        rw [hm] at h
        simp [bind, Except.bind, pure, Except.pure] at h
      | ok out1 =>
        rw [hm] at h
        simp only [bind, Except.bind, pure, Except.pure, Except.ok.injEq] at h
        subst h
        simp only [List.map_cons]
        rw [mapM_parse_names rest out1 hm, ipa_subdom_parse_name p.1 _ s1 hp]

theorem subdoms_refresh_append_names (pairs : List (SysdbAttrs × Bool))
    (appended : List SysdbSubdom)
    (h : subdoms_refresh_append pairs = .ok appended) :
    appended.map SysdbSubdom.name = unhandled_cns pairs := by
  unfold subdoms_refresh_append at h
  rw [mapM_parse_names _ _ h]
  rfl

theorem unhandled_cns_of_all_handled (pairs : List (SysdbAttrs × Bool))
    (h : pairs.all (fun p => p.2) = true) : unhandled_cns pairs = [] := by
  unfold unhandled_cns
  rw [List.map_eq_nil_iff]
  rw [List.filter_eq_nil_iff]
  intro p hp
  simp only [List.all_eq_true] at h
  simp [h p hp]

theorem unhandled_cns_init (reply : List SysdbAttrs) :
    unhandled_cns (reply.map (fun a => (a, false))) =
      reply.map SysdbAttrs.cn := by
  induction reply with
  | nil => rfl
  | cons a rest ih => rw [List.map_cons, unhandled_cns_cons_false, ih]; rfl

/-- Core permutation invariant of the reconciler: whenever
`ipa_subdomains_refresh` succeeds, the names of the resulting cache entries
are a permutation of the `cn` values of the fetched batch — every output
entry corresponds to exactly one fetched entry of the same name. -/
theorem subdoms_refresh_core_names_perm (subdoms : List SysdbSubdom)
    (reply : List SysdbAttrs) (changes0 : Bool) (out : List SysdbSubdom)
    (ch : Bool)
    (h : subdoms_refresh_core subdoms reply changes0 = .ok (out, ch)) :
    List.Perm (reply.map SysdbAttrs.cn) (out.map SysdbSubdom.name) := by
  unfold subdoms_refresh_core at h
  split at h
  · simp at h
  · rename_i survivors pairs hloop
    have hperm := subdoms_refresh_loop_perm subdoms _ pairs survivors hloop
    rw [unhandled_cns_init] at hperm
    split at h
    · rename_i hall
      simp only [Except.ok.injEq, Prod.mk.injEq] at h
      obtain ⟨ho, hc⟩ := h
      subst ho
      rw [unhandled_cns_of_all_handled pairs hall] at hperm
      simpa using hperm
    · split at h
      · simp at h
      · rename_i appended happ
        simp only [Except.ok.injEq, Prod.mk.injEq] at h
        obtain ⟨ho, hc⟩ := h
        subst ho
        rw [List.map_append, subdoms_refresh_append_names pairs appended happ]
        exact hperm

theorem subdom_reply_scan_error (n : String) :
    ∀ (pairs : List (SysdbAttrs × Bool)) (e : Errno),
    subdom_reply_scan n pairs = .error e → e = .enoent
  | [], e, h => by simp [subdom_reply_scan] at h
  | (a, true) :: rest, e, h => by
    unfold subdom_reply_scan at h
    split at h
    · rename_i e1 hs
      simp only [Except.error.injEq] at h
      subst h
      exact subdom_reply_scan_error n rest e1 hs
    · simp at h
  | (a, false) :: rest, e, h => by
    unfold subdom_reply_scan at h
    split at h
    · simp only [Except.error.injEq] at h
      exact h.symm
    · split at h
      · simp at h
      · split at h
        · rename_i e1 hs
          simp only [Except.error.injEq] at h
          subst h
          exact subdom_reply_scan_error n rest e1 hs
        · simp at h

theorem ipa_subdom_parse_rest_error (attrs : SysdbAttrs) (s : SysdbSubdom)
    (e : Errno) (h : ipa_subdom_parse_rest attrs s = .error e) :
    e = .enoent := by
  unfold ipa_subdom_parse_rest at h
  split at h
  · simp only [Except.error.injEq] at h; exact h.symm
  · split at h
    · simp only [Except.error.injEq] at h; exact h.symm
    · simp at h

theorem ipa_subdom_parse_error (attrs : SysdbAttrs) (s : SysdbSubdom)
    (e : Errno) (h : ipa_subdom_parse attrs s = .error e) : e ≠ .eok := by
  unfold ipa_subdom_parse at h
  split at h
  · simp only [Except.error.injEq] at h
    subst h
    simp
  · split at h
    · split at h
      · rw [ipa_subdom_parse_rest_error _ _ _ h]
        simp
      · simp only [Except.error.injEq] at h
        subst h
        simp
    · rw [ipa_subdom_parse_rest_error _ _ _ h]
      simp

theorem subdoms_refresh_loop_error :
    ∀ (subs : List SysdbSubdom) (pairs : List (SysdbAttrs × Bool)) (e : Errno),
    subdoms_refresh_loop subs pairs = .error e → e ≠ .eok
  | [], pairs, e, h => by simp [subdoms_refresh_loop] at h
  | s :: rest, pairs, e, h => by
    unfold subdoms_refresh_loop at h
    split at h
    · simp only [Except.error.injEq] at h
      subst h
      simp
    · rename_i n hn
      split at h
      · rename_i e1 hs
        simp only [Except.error.injEq] at h
        subst h
        rw [subdom_reply_scan_error n pairs e1 hs]
        simp
      · rename_i pairs1 hs
        exact subdoms_refresh_loop_error rest pairs1 e h
      · rename_i a pairs1 hs
        split at h
        · rename_i e1 hparse
          simp only [Except.error.injEq] at h
          subst h
          exact ipa_subdom_parse_error _ _ _ hparse
        · rename_i s1 hparse
          split at h
          · rename_i e1 hloop
            simp only [Except.error.injEq] at h
            subst h
            exact subdoms_refresh_loop_error rest pairs1 e1 hloop
          · simp at h

theorem mapM_parse_error :
    ∀ (l : List (SysdbAttrs × Bool)) (e : Errno),
    l.mapM (fun p => ipa_subdom_parse p.1 {}) = .error e → e ≠ .eok
  | [], e, h => by
    rw [List.mapM_nil] at h
    simp [pure, Except.pure] at h
  | p :: rest, e, h => by
    rw [List.mapM_cons] at h
    cases hp : ipa_subdom_parse p.1 {} with
    | error e1 =>
      rw [hp] at h
      simp only [bind, Except.bind, Except.error.injEq] at h
      subst h
      exact ipa_subdom_parse_error _ _ _ hp
    | ok s1 =>
      rw [hp] at h
      cases hm : rest.mapM (fun p => ipa_subdom_parse p.1 {}) with
      | error e1 =>
        rw [hm] at h
        simp only [bind, Except.bind, Except.error.injEq] at h
        subst h
        exact mapM_parse_error rest e1 hm
      | ok out1 =>
        rw [hm] at h
        simp [bind, Except.bind, pure, Except.pure] at h

/-- The reconciler core never fails with `EOK`: every error path returns a
nonzero errno, so `ret == EOK` in the caller means success. -/
theorem subdoms_refresh_core_error (subdoms : List SysdbSubdom)
    (reply : List SysdbAttrs) (changes0 : Bool) (e : Errno) (ch : Bool)
    (h : subdoms_refresh_core subdoms reply changes0 = .error (e, ch)) :
    e ≠ .eok := by
  unfold subdoms_refresh_core at h
  split at h
  · rename_i e1 hloop
    simp only [Except.error.injEq, Prod.mk.injEq] at h
    obtain ⟨he, hc⟩ := h
    subst he
    exact subdoms_refresh_loop_error subdoms _ _ hloop
  · rename_i survivors pairs hloop
    split at h
    · simp at h
    · split at h
      · rename_i e1 happ
        simp only [Except.error.injEq, Prod.mk.injEq] at h
        obtain ⟨he, hc⟩ := h
        subst he
        unfold subdoms_refresh_append at happ
        exact mapM_parse_error _ _ happ
      · simp at h

/-! ## Range-parser lemmas -/

theorem ipa_ranges_parse_ok_of_present :
    ∀ (reply : List SysdbAttrs), (∀ a ∈ reply, a.cn ≠ none) →
    ipa_ranges_parse_results reply = .ok (reply.map (fun a =>
      { name := a.cn.getD "", trusted_dom_sid := a.trustedDomSid,
        base_id := a.baseId.getD 0, id_range_size := a.idRangeSize.getD 0,
        base_rid := a.baseRid.getD 0,
        secondary_base_rid := a.secondaryBaseRid.getD 0 }))
  | [], _ => rfl
  | a :: rest, hall => by
    unfold ipa_ranges_parse_results
    cases hc : a.cn with
    | none => exact absurd hc (hall a (by simp))
    | some n =>
      rw [ipa_ranges_parse_ok_of_present rest (fun b hb => hall b (by simp [hb]))]
      simp [hc]

theorem ipa_ranges_parse_error_of_missing :
    ∀ (reply : List SysdbAttrs), (∃ a ∈ reply, a.cn = none) →
    ipa_ranges_parse_results reply = .error .enoent
  | [], h => absurd h (by simp)
  | a :: rest, h => by
    unfold ipa_ranges_parse_results
    cases hc : a.cn with
    | none => rfl
    | some n =>
      obtain ⟨b, hb, hbc⟩ := h
      rcases List.mem_cons.mp hb with rfl | hbr
      · rw [hc] at hbc
        exact absurd hbc (by simp)
      · rw [ipa_ranges_parse_error_of_missing rest ⟨b, hbr, hbc⟩]

/-! ## Claim theorems about the reconciler and the range parser -/

/-- C9: `ipa_ranges_parse_results` fails (aborting the whole parse,
returning no partial list) exactly when some entry lacks the `cn`
attribute (allocation is modelled as infallible, so the `ENOMEM` failure
mode does not arise in the model); otherwise it returns one record per
input entry, in input order, with absent optional numeric fields zero and
an absent `ipaNTTrustedDomainSID` left unset. -/
theorem c9_ranges_parse_contract (reply : List SysdbAttrs) :
    ((∃ e, ipa_ranges_parse_results reply = .error e) ↔
      ∃ a ∈ reply, a.cn = none)
    ∧ ((∀ a ∈ reply, a.cn ≠ none) →
        ipa_ranges_parse_results reply = .ok (reply.map (fun a =>
          { name := a.cn.getD "", trusted_dom_sid := a.trustedDomSid,
            base_id := a.baseId.getD 0, id_range_size := a.idRangeSize.getD 0,
            base_rid := a.baseRid.getD 0,
            secondary_base_rid := a.secondaryBaseRid.getD 0 }))) := by
  constructor
  · constructor
    · rintro ⟨e, he⟩
      by_contra hno
      push_neg at hno
      rw [ipa_ranges_parse_ok_of_present reply hno] at he
      simp at he
    · intro hex
      exact ⟨.enoent, ipa_ranges_parse_error_of_missing reply hex⟩
  · exact ipa_ranges_parse_ok_of_present reply

/-- Witness for C9: the spec's round-trip example, one range entry named
`R1` with base id 1000 and range size 200000 and no other attributes. -/
theorem c9_ranges_parse_contract_witness :
    (∀ a ∈ [({ cn := some "R1", baseId := some 1000,
               idRangeSize := some 200000 } : SysdbAttrs)], a.cn ≠ none)
    ∧ ipa_ranges_parse_results
        [{ cn := some "R1", baseId := some 1000, idRangeSize := some 200000 }]
      = .ok [{ name := "R1", trusted_dom_sid := none, base_id := 1000,
               id_range_size := 200000, base_rid := 0,
               secondary_base_rid := 0 }] :=
  ⟨by decide, by
    rw [(c9_ranges_parse_contract
      [{ cn := some "R1", baseId := some 1000,
         idRangeSize := some 200000 }]).2 (by decide)]
    rfl⟩

/-- C10: after every reconciliation call, failure resets the gate
timestamp to zero and clears the cached subdomain list, while success sets
the timestamp to the current time whether or not changes were detected. -/
theorem c10_refresh_timestamp (ctx : IpaSubdomainsCtx)
    (reply : List SysdbAttrs) (changes0 : Bool) (now : Int)
    (ctx1 : IpaSubdomainsCtx) (ch : Bool) (ret : Errno)
    (h : ipa_subdomains_refresh ctx reply changes0 now = (ctx1, ch, ret)) :
    (ret = .eok → ctx1.last_refreshed = now)
    ∧ (ret ≠ .eok → ctx1.last_refreshed = 0 ∧ ctx1.subdoms = []) := by
  unfold ipa_subdomains_refresh at h
  split at h
  · simp only [Prod.mk.injEq] at h
    obtain ⟨hc1, hc2, hc3⟩ := h
    subst hc1
    subst hc3
    exact ⟨fun _ => rfl, fun hne => absurd rfl hne⟩
  · rename_i e chx hcore
    simp only [Prod.mk.injEq] at h
    obtain ⟨hc1, hc2, hc3⟩ := h
    subst hc1
    subst hc3
    have hne := subdoms_refresh_core_error _ _ _ _ _ hcore
    exact ⟨fun heq => absurd heq hne, fun _ => ⟨rfl, rfl⟩⟩

/-- Witness for C10: a batch whose only entry has no `cn` makes the
refresh fail with `ENOENT` while a cached entry exists; the returned
context has timestamp 0 and an empty cache. -/
theorem c10_refresh_timestamp_witness :
    ipa_subdomains_refresh
        ⟨7, [{ name := some "a", realm := some "A", flat_name := some "f",
               id := some "s" }]⟩ [{}] false 42
      = (⟨0, []⟩, false, .enoent)
    ∧ ((⟨0, []⟩ : IpaSubdomainsCtx).last_refreshed = 0
        ∧ (⟨0, []⟩ : IpaSubdomainsCtx).subdoms = []) :=
  ⟨by decide,
    (c10_refresh_timestamp
      ⟨7, [{ name := some "a", realm := some "A", flat_name := some "f",
             id := some "s" }]⟩ [{}] false 42 ⟨0, []⟩ false .enoent
      (by decide)).2 (by decide)⟩

/-- C1 (code bug): when the cached list is `[a, b]` and the fetched batch
contains only `a`, the reconciler removes `b` (survivors shift down) but
reports `changed = false` — `*changes` is set only when `count != h`,
i.e. only when some fetched entry was not consumed, so a pure removal is
never flagged and the caller skips `sysdb_update_subdomains`.  The claim
(and the spec) say `changed` is true when an entry is removed. -/
theorem c1_removal_not_flagged :
    subdoms_refresh_core
      [{ name := some "a", realm := some "A", flat_name := some "fa",
         id := some "sa" },
       { name := some "b", realm := some "B", flat_name := some "fb",
         id := some "sb" }]
      [{ cn := some "a", flatName := some "fa", trustedDomSid := some "sa" }]
      false
    = .ok ([{ name := some "a", realm := some "A", flat_name := some "fa",
              id := some "sa" }], false) := by
  decide

/-- C4 (code bug): a fetched batch that matches the cache by name but
carries a changed `ipaNTTrustedDomainSID` leaves the cached entry with
`flat_name = NULL` and the *old* identifier: `ipa_subdom_parse` frees
`subdom->id` but assigns `NULL` to `subdom->flat_name`
(ipa_subdomains.c:253).  The claim says both mutable fields equal the
fetched values; `changed = false` is reported as the claim expects. -/
theorem c4_sid_change_clobbers_flat_name :
    subdoms_refresh_core
      [{ name := some "a", realm := some "A", flat_name := some "F1",
         id := some "S1" }]
      [{ cn := some "a", flatName := some "F1", trustedDomSid := some "S2" }]
      false
    = .ok ([{ name := some "a", realm := some "A", flat_name := none,
              id := some "S1" }], false) := by
  decide

/-- Counterexample to C3 as stated: a fetched batch with two entries of
the same name, reconciled against an empty cache, yields a cache with two
entries named `x` — the first-match-wins consumption mark prevents double
matching of cached entries, but unconsumed duplicate fetched entries are
all appended. -/
theorem c3_duplicate_fetch_duplicates_cache :
    subdoms_refresh_core []
      [{ cn := some "x", flatName := some "f", trustedDomSid := some "s" },
       { cn := some "x", flatName := some "f", trustedDomSid := some "s" }]
      false
    = .ok ([{ name := some "x", realm := some "X", flat_name := some "f",
              id := some "s" },
            { name := some "x", realm := some "X", flat_name := some "f",
              id := some "s" }], true)
    ∧ ¬ (([{ name := some "x", realm := some "X", flat_name := some "f",
             id := some "s" },
           { name := some "x", realm := some "X", flat_name := some "f",
             id := some "s" }] : List SysdbSubdom).map
            SysdbSubdom.name).Nodup := by
  constructor
  · decide
  · decide

/-- C3 (amended): for every cached list and every fetched batch whose
names are pairwise distinct, a successful reconciliation produces a cache
with pairwise distinct names.  (With duplicate names in the fetched batch
the property fails, see the counterexample.) -/
theorem c3_refresh_names_nodup (subdoms : List SysdbSubdom)
    (reply : List SysdbAttrs) (changes0 : Bool) (out : List SysdbSubdom)
    (ch : Bool)
    (hok : subdoms_refresh_core subdoms reply changes0 = .ok (out, ch))
    (hnodup : (reply.map SysdbAttrs.cn).Nodup) :
    (out.map SysdbSubdom.name).Nodup :=
  (subdoms_refresh_core_names_perm subdoms reply changes0 out ch hok).nodup
    hnodup

/-- Witness for C3 (amended): cache `[a]`, batch `[b]` with distinct
names: the result `[b]` has no duplicate names. -/
theorem c3_refresh_names_nodup_witness :
    subdoms_refresh_core
        [{ name := some "a", realm := some "A", flat_name := some "fa",
           id := some "sa" }]
        [{ cn := some "b", flatName := some "fb", trustedDomSid := some "sb" }]
        false
      = .ok ([{ name := some "b", realm := some "B", flat_name := some "fb",
                id := some "sb" }], true)
    ∧ (([{ name := some "b", realm := some "B", flat_name := some "fb",
           id := some "sb" }] : List SysdbSubdom).map SysdbSubdom.name).Nodup :=
  ⟨by decide,
    c3_refresh_names_nodup
      [{ name := some "a", realm := some "A", flat_name := some "fa",
         id := some "sa" }]
      [{ cn := some "b", flatName := some "fb", trustedDomSid := some "sb" }]
      false
      [{ name := some "b", realm := some "B", flat_name := some "fb",
         id := some "sb" }]
      true (by decide) (by decide)⟩

/-! ## State-machine trace lemmas -/

/-- Ranges-stage searches among a search list. -/
def ranges_searches_of (l : List (IpaReqType × Nat)) :
    List (IpaReqType × Nat) :=
  l.filter (fun p => decide (p.1 = IpaReqType.ranges))

theorem ranges_searches_of_append (l1 l2 : List (IpaReqType × Nat)) :
    ranges_searches_of (l1 ++ l2) =
      ranges_searches_of l1 ++ ranges_searches_of l2 :=
  List.filter_append _ _

/-- The master stage replies exactly once, issues no ranges search, and
performs no subdomain or range store. -/
theorem master_flow_trace (env : Env) :
    ∀ (bases : List SearchBase) (idx : Nat) (tr : Trace),
    ∃ r : Reply,
      (ipa_subdomains_master_flow env idx bases tr).replies =
          tr.replies ++ [r]
      ∧ ranges_searches_of (ipa_subdomains_master_flow env idx bases tr).searches
          = ranges_searches_of tr.searches
      ∧ (ipa_subdomains_master_flow env idx bases tr).range_stores =
          tr.range_stores
      ∧ (ipa_subdomains_master_flow env idx bases tr).subdom_stores =
          tr.subdom_stores
  | [], idx, tr =>
    ⟨⟨.dpFatal, .eio⟩, by simp [ipa_subdomains_master_flow, Trace.addReply]⟩
  | b :: rest, idx, tr => by
    simp only [ipa_subdomains_master_flow]
    cases hs : env.search .master idx with
    | error e =>
      refine ⟨⟨.dpFatal, e⟩, ?_⟩
      simp [Trace.addReply, Trace.addSearch, ranges_searches_of_append,
        ranges_searches_of]
    | ok l =>
      cases l with
      | nil =>
        obtain ⟨r, h1, h2, h3, h4⟩ :=
          master_flow_trace env rest (idx + 1) (tr.addSearch (.master, idx))
        refine ⟨r, ?_, ?_, ?_, ?_⟩
        · rw [h1]; simp [Trace.addSearch]
        · rw [h2]
          simp [Trace.addSearch, ranges_searches_of_append, ranges_searches_of]
        · rw [h3]; simp [Trace.addSearch]
        · rw [h4]; simp [Trace.addSearch]
      | cons r0 rs =>
        cases hf : r0.flatName with
        | none =>
          refine ⟨⟨.dpFatal, .enoent⟩, ?_⟩
          simp [hf, Trace.addReply, Trace.addSearch, ranges_searches_of_append,
            ranges_searches_of]
        | some fv =>
          cases hsid : r0.sid with
          | none =>
            refine ⟨⟨.dpFatal, .enoent⟩, ?_⟩
            simp [hf, hsid, Trace.addReply, Trace.addSearch,
              ranges_searches_of_append, ranges_searches_of]
          | some sv =>
            refine ⟨⟨if env.master_add_info = .eok then .dpOk else .dpFatal,
              env.master_add_info⟩, ?_⟩
            simp [hf, hsid, Trace.addReply, Trace.addSearch,
              Trace.addMasterStore, ranges_searches_of_append,
              ranges_searches_of]

/-- The ranges stage (and everything after it) replies exactly once,
issues at most one ranges search — against base index 0 — and any range
store it performs stores the parse of that single search's results; it
performs no subdomain store. -/
theorem ranges_flow_trace (env : Env) (cfg : IpaConfig) (tr : Trace) :
    ∃ r : Reply,
      (ipa_subdomains_ranges_flow env cfg tr).replies = tr.replies ++ [r]
      ∧ (ranges_searches_of (ipa_subdomains_ranges_flow env cfg tr).searches
           = ranges_searches_of tr.searches
         ∨ ranges_searches_of (ipa_subdomains_ranges_flow env cfg tr).searches
           = ranges_searches_of tr.searches ++ [(IpaReqType.ranges, 0)])
      ∧ ((ipa_subdomains_ranges_flow env cfg tr).range_stores = tr.range_stores
         ∨ ∃ rep rl, env.search .ranges 0 = .ok rep
             ∧ ipa_ranges_parse_results rep = .ok rl
             ∧ (ipa_subdomains_ranges_flow env cfg tr).range_stores
               = tr.range_stores ++ [rl])
      ∧ (ipa_subdomains_ranges_flow env cfg tr).subdom_stores =
          tr.subdom_stores := by
  unfold ipa_subdomains_ranges_flow
  cases hb : cfg.ranges_search_bases with
  | nil =>
    refine ⟨⟨.dpFatal, .einval⟩, ?_, Or.inl ?_, Or.inl ?_, ?_⟩ <;>
      simp [Trace.addReply]
  | cons b rest =>
    cases hs : env.search .ranges 0 with
    | error e =>
      simp only [hs]
      refine ⟨⟨.dpFatal, e⟩, ?_, Or.inr ?_, Or.inl ?_, ?_⟩ <;>
        simp [Trace.addReply, Trace.addSearch, ranges_searches_of_append,
          ranges_searches_of]
    | ok rep =>
      simp only [hs]
      cases hp : ipa_ranges_parse_results rep with
      | error e =>
        simp only [hp]
        refine ⟨⟨.dpFatal, e⟩, ?_, Or.inr ?_, Or.inl ?_, ?_⟩ <;>
          simp [Trace.addReply, Trace.addSearch, ranges_searches_of_append,
            ranges_searches_of]
      | ok rl =>
        simp only [hp]
        by_cases hu : env.update_ranges = .eok
        · rw [if_pos hu]
          cases hm : env.master_get_info with
          | error e =>
            simp only [hm]
            refine ⟨⟨.dpFatal, e⟩, ?_, Or.inr ?_, Or.inr ⟨rep, rl, rfl, hp, ?_⟩,
                ?_⟩ <;>
              simp [Trace.addReply, Trace.addSearch, Trace.addRangeStore,
                ranges_searches_of_append, ranges_searches_of]
          | ok domain_info =>
            simp only [hm]
            by_cases hinc : domain_info.flat_name = none ∨
                domain_info.id = none ∨ domain_info.name = none
            · rw [if_pos hinc]
              cases hmb : cfg.master_search_bases with
              | nil =>
                simp only [hmb]
                refine ⟨⟨.dpOk, .eok⟩, ?_, Or.inr ?_,
                    Or.inr ⟨rep, rl, rfl, hp, ?_⟩, ?_⟩ <;>
                  simp [Trace.addReply, Trace.addSearch, Trace.addRangeStore,
                    ranges_searches_of_append, ranges_searches_of]
              | cons mb mrest =>
                simp only [hmb]
                obtain ⟨r, h1, h2, h3, h4⟩ := master_flow_trace env
                  (mb :: mrest) 0
                  ((tr.addSearch (.ranges, 0)).addRangeStore rl)
                refine ⟨r, ?_, Or.inr ?_, Or.inr ⟨rep, rl, rfl, hp, ?_⟩, ?_⟩
                · rw [h1]
                  simp [Trace.addSearch, Trace.addRangeStore]
                · rw [h2]
                  simp [Trace.addSearch, Trace.addRangeStore,
                    ranges_searches_of_append, ranges_searches_of]
                · rw [h3]
                  simp [Trace.addSearch, Trace.addRangeStore]
                · rw [h4]
                  simp [Trace.addSearch, Trace.addRangeStore]
            · rw [if_neg hinc]
              refine ⟨⟨.dpOk, .eok⟩, ?_, Or.inr ?_,
                  Or.inr ⟨rep, rl, rfl, hp, ?_⟩, ?_⟩ <;>
                simp [Trace.addReply, Trace.addSearch, Trace.addRangeStore,
                  ranges_searches_of_append, ranges_searches_of]
        · rw [if_neg hu]
          refine ⟨⟨.dpFatal, env.update_ranges⟩, ?_, Or.inr ?_,
              Or.inr ⟨rep, rl, rfl, hp, ?_⟩, ?_⟩ <;>
            simp [Trace.addReply, Trace.addSearch, Trace.addRangeStore,
              ranges_searches_of_append, ranges_searches_of]

/-- The slave stage (and the whole rest of the run it triggers) replies
exactly once; its ranges searches are at most one, at index 0; its range
stores come from that single ranges search; and the backend subdomain
context is either untouched or is exactly the output of the single
`ipa_subdomains_refresh` call made at cursor exhaustion — no later step
modifies it. -/
theorem slave_flow_trace (env : Env) (cfg : IpaConfig) :
    ∀ (bases : List SearchBase) (sd : IpaSubdomainsCtx) (idx : Nat)
      (acc : List SysdbAttrs) (tr : Trace),
    ∃ r : Reply,
      (ipa_subdomains_slave_flow env cfg sd idx acc bases tr).2.replies =
          tr.replies ++ [r]
      ∧ (ranges_searches_of
            (ipa_subdomains_slave_flow env cfg sd idx acc bases tr).2.searches
          = ranges_searches_of tr.searches
         ∨ ranges_searches_of
            (ipa_subdomains_slave_flow env cfg sd idx acc bases tr).2.searches
          = ranges_searches_of tr.searches ++ [(IpaReqType.ranges, 0)])
      ∧ ((ipa_subdomains_slave_flow env cfg sd idx acc bases tr).2.range_stores
          = tr.range_stores
         ∨ ∃ rep rl, env.search .ranges 0 = .ok rep
             ∧ ipa_ranges_parse_results rep = .ok rl
             ∧ (ipa_subdomains_slave_flow env cfg sd idx acc
                  bases tr).2.range_stores = tr.range_stores ++ [rl])
      ∧ ((ipa_subdomains_slave_flow env cfg sd idx acc bases tr).1 = sd
         ∨ ∃ acc1, (ipa_subdomains_slave_flow env cfg sd idx acc bases tr).1
             = (ipa_subdomains_refresh sd acc1 false env.now).1)
  | [], sd, idx, acc, tr => by
    unfold ipa_subdomains_slave_flow
    rcases hres : ipa_subdomains_refresh sd acc false env.now with ⟨sd1, ch, ret⟩
    simp only [hres]
    have hctx : sd1 = (ipa_subdomains_refresh sd acc false env.now).1 := by
      rw [hres]
    by_cases hret : ret = .eok
    · rw [if_pos hret]
      cases ch with
      | true =>
        simp only [if_pos]
        by_cases hupd : env.update_subdomains = .eok
        · rw [if_pos hupd]
          obtain ⟨r, h1, h2, h3, h4⟩ := ranges_flow_trace env cfg
            (tr.addSubdomStore sd1.subdoms)
          refine ⟨r, ?_, ?_, ?_, Or.inr ⟨acc, hctx⟩⟩
          · rw [h1]; simp [Trace.addSubdomStore]
          · rcases h2 with h2 | h2 <;> [exact Or.inl (by
              rw [h2]; simp [Trace.addSubdomStore]); exact Or.inr (by
              rw [h2]; simp [Trace.addSubdomStore])]
          · rcases h3 with h3 | h3
            · exact Or.inl (by rw [h3]; simp [Trace.addSubdomStore])
            · obtain ⟨rep, rl, ha, hb, hc⟩ := h3
              exact Or.inr ⟨rep, rl, ha, hb, by
                rw [hc]; simp [Trace.addSubdomStore]⟩
        · rw [if_neg hupd]
          refine ⟨⟨.dpFatal, env.update_subdomains⟩, ?_, Or.inl ?_, Or.inl ?_,
              Or.inr ⟨acc, hctx⟩⟩ <;>
            simp [Trace.addReply, Trace.addSubdomStore]
      | false =>
        simp only [Bool.false_eq_true, if_neg, ite_false]
        obtain ⟨r, h1, h2, h3, h4⟩ := ranges_flow_trace env cfg tr
        exact ⟨r, h1, h2, h3, Or.inr ⟨acc, hctx⟩⟩
    · rw [if_neg hret]
      refine ⟨⟨.dpFatal, ret⟩, ?_, Or.inl ?_, Or.inl ?_, Or.inr ⟨acc, hctx⟩⟩ <;>
        simp [Trace.addReply]
  | b :: rest, sd, idx, acc, tr => by
    unfold ipa_subdomains_slave_flow
    cases hs : env.search .slave idx with
    | error e =>
      simp only [hs]
      refine ⟨⟨.dpFatal, e⟩, ?_, Or.inl ?_, Or.inl ?_, Or.inl ?_⟩ <;>
        simp [Trace.addReply, Trace.addSearch, ranges_searches_of_append,
          ranges_searches_of]
    | ok results =>
      simp only [hs]
      obtain ⟨r, h1, h2, h3, h4⟩ := slave_flow_trace env cfg rest sd (idx + 1)
        (acc ++ results) (tr.addSearch (.slave, idx))
      refine ⟨r, ?_, ?_, ?_, ?_⟩
      · rw [h1]; simp [Trace.addSearch]
      · rcases h2 with h2 | h2
        · exact Or.inl (by
            rw [h2]
            simp [Trace.addSearch, ranges_searches_of_append,
              ranges_searches_of])
        · exact Or.inr (by
            rw [h2]
            simp [Trace.addSearch, ranges_searches_of_append,
              ranges_searches_of])
      · rcases h3 with h3 | h3
        · exact Or.inl (by rw [h3]; simp [Trace.addSearch])
        · obtain ⟨rep, rl, ha, hb, hc⟩ := h3
          exact Or.inr ⟨rep, rl, ha, hb, by rw [hc]; simp [Trace.addSearch]⟩
      · rcases h4 with h4 | h4
        · exact Or.inl h4
        · obtain ⟨acc1, hac⟩ := h4
          exact Or.inr ⟨acc1, hac⟩

/-! ## Demo configuration used by witnesses and counterexamples -/

def demo_base : SearchBase := {}

def demo_slave_attr : SysdbAttrs :=
  { cn := some "x", flatName := some "f", trustedDomSid := some "s" }

def demo_range_attr : SysdbAttrs :=
  { cn := some "R1", baseId := some 1000 }

def demo_master_attr : SysdbAttrs :=
  { flatName := some "MD", sid := some "MS" }

/-- A benign environment: connection succeeds, the slave search base
yields one subdomain, ranges base 0 yields one range, master base 0 is
empty and master base 1 yields the master record; all stores succeed; the
persisted master info starts incomplete. -/
def demo_env : Env :=
  { now := 100, dom_name := "ipa.example",
    connect := .ok (),
    search := fun t i =>
      match t, i with
      | .slave, 0 => .ok [demo_slave_attr]
      | .ranges, 0 => .ok [demo_range_attr]
      | .master, 1 => .ok [demo_master_attr]
      | _, _ => .ok [],
    update_subdomains := .eok, update_ranges := .eok,
    master_get_info := .ok {}, master_add_info := .eok }

def demo_cfg : IpaConfig :=
  { search_bases := [demo_base],
    master_search_bases := [demo_base, demo_base],
    ranges_search_bases := [demo_base, demo_base] }

def demo_sd : IpaSubdomainsCtx := { last_refreshed := 0, subdoms := [] }

/-! ## Claim theorems about the state machine -/

/-- Counterexample to C7 as stated: with an empty slave-stage search-base
list, a passing refresh gate and a successful connection,
`ipa_subdomains_handler_get` returns `EOK` and
`ipa_subdomains_get_conn_done` merely returns (ipa_subdomains.c:495): the
completion callback never fires — zero replies, not one. -/
theorem c7_empty_slave_bases_no_reply :
    (ipa_subdomains_handler
        { search_bases := [], master_search_bases := [demo_base],
          ranges_search_bases := [demo_base] }
        demo_env demo_sd).2.replies = [] := by
  rfl

/-- C7 (amended): for every environment and every configuration whose
slave-stage search-base list is non-empty, the run reaches a terminal
state and the completion callback fires exactly once — whatever the
outcomes of the gate, the connection, the searches, the parses and the
stores.  (With an empty slave search-base list the callback is skipped,
see the counterexample.) -/
theorem c7_single_reply (cfg : IpaConfig) (env : Env) (sd : IpaSubdomainsCtx)
    (hslave : cfg.search_bases ≠ []) :
    ((ipa_subdomains_handler cfg env sd).2.replies).length = 1 := by
  unfold ipa_subdomains_handler
  by_cases hgate : sd.last_refreshed > env.now - IPA_SUBDOMAIN_REFRESH_LIMIT
  · rw [if_pos hgate]
    simp [Trace.addReply]
  · rw [if_neg hgate]
    cases hc : env.connect with
    | error pe =>
      obtain ⟨dp, e⟩ := pe
      simp [hc, Trace.addReply]
    | ok u =>
      simp only [hc]
      cases hb : cfg.search_bases with
      | nil => exact absurd hb hslave
      | cons b rest =>
        simp only [hb]
        obtain ⟨r, h1, h2, h3, h4⟩ :=
          slave_flow_trace env cfg (b :: rest) sd 0 [] {}
        rw [h1]
        rfl

/-- Witness for C7 (amended): the benign demo run, whose slave list is
non-empty, replies exactly once. -/
theorem c7_single_reply_witness :
    demo_cfg.search_bases ≠ []
    ∧ ((ipa_subdomains_handler demo_cfg demo_env demo_sd).2.replies).length
      = 1 :=
  ⟨by decide, c7_single_reply demo_cfg demo_env demo_sd (by decide)⟩

/-- C8: when the gate lets the run proceed and the connection attempt
fails with the backend offline, the run terminates immediately with the
distinguished `DP_ERR_OFFLINE` outcome: no directory search is issued, the
cached subdomain context is untouched (no reconciliation), and no
subdomain, range or master store is performed. -/
theorem c8_offline_outcome (cfg : IpaConfig) (env : Env)
    (sd : IpaSubdomainsCtx) (e : Errno)
    (hgate : sd.last_refreshed ≤ env.now - IPA_SUBDOMAIN_REFRESH_LIMIT)
    (hconn : env.connect = .error (.dpOffline, e)) :
    ipa_subdomains_handler cfg env sd =
      (sd, { searches := [], subdom_stores := [], range_stores := [],
             master_stores := [], replies := [⟨.dpOffline, e⟩] }) := by
  unfold ipa_subdomains_handler
  rw [if_neg (not_lt.mpr hgate), hconn]
  simp [Trace.addReply]

/-- Witness for C8: the demo setup with an offline connection result. -/
theorem c8_offline_outcome_witness :
    demo_sd.last_refreshed ≤ (100 : Int) - IPA_SUBDOMAIN_REFRESH_LIMIT
    ∧ ipa_subdomains_handler demo_cfg
        { demo_env with connect := .error (.dpOffline, .eio) } demo_sd =
      (demo_sd, { searches := [], subdom_stores := [], range_stores := [],
                  master_stores := [], replies := [⟨.dpOffline, .eio⟩] }) :=
  ⟨by decide,
    c8_offline_outcome demo_cfg
      { demo_env with connect := .error (.dpOffline, .eio) } demo_sd .eio
      (by decide) rfl⟩

/-- Counterexample to C5 as stated: a run in which reconciliation succeeds
with changes and the subsequent `sysdb_update_subdomains` fails
(a StoreError) leaves the gate timestamp at the refresh time (100), not
zero — the reset in the `done:` block of `ipa_subdomains_refresh` runs
only for failures inside the reconciliation itself, and nothing in
`ipa_subdomains_handler_done` or `ipa_subdomains_handler_ranges_done`
touches `last_refreshed` (the same holds for a ranges `ParseError`). -/
theorem c5_store_failure_keeps_timestamp :
    (ipa_subdomains_handler demo_cfg
        { demo_env with update_subdomains := .eio } demo_sd).1.last_refreshed
      = 100
    ∧ (ipa_subdomains_handler demo_cfg
        { demo_env with update_subdomains := .eio } demo_sd).1.last_refreshed
      ≠ 0
    ∧ (ipa_subdomains_handler demo_cfg
        { demo_env with update_subdomains := .eio } demo_sd).2.replies
      = [⟨.dpFatal, .eio⟩] := by
  refine ⟨?_, ?_, ?_⟩ <;> decide

/-- C5 (amended): the backend subdomain context (gate timestamp and cached
list) is modified only by the single reconciliation call of a run: the
final context is either the initial one or exactly the output of
`ipa_subdomains_refresh` on some accumulated batch.  Consequently only
failures inside reconciliation reset the timestamp to zero; a store
failure when persisting the reconciled snapshot, and any ranges-stage
parse or store failure, leave the timestamp at the refresh time, so the
next invocation within the refresh interval is skipped rather than
retried. -/
theorem c5_ctx_only_touched_by_refresh (cfg : IpaConfig) (env : Env)
    (sd : IpaSubdomainsCtx) :
    (ipa_subdomains_handler cfg env sd).1 = sd
    ∨ ∃ acc, (ipa_subdomains_handler cfg env sd).1
        = (ipa_subdomains_refresh sd acc false env.now).1 := by
  unfold ipa_subdomains_handler
  by_cases hgate : sd.last_refreshed > env.now - IPA_SUBDOMAIN_REFRESH_LIMIT
  · rw [if_pos hgate]
    exact Or.inl rfl
  · rw [if_neg hgate]
    cases hc : env.connect with
    | error pe =>
      obtain ⟨dp, e⟩ := pe
      simp only [hc]
      exact Or.inl trivial
    | ok u =>
      simp only [hc]
      cases hb : cfg.search_bases with
      | nil =>
        simp only [hb]
        exact Or.inl trivial
      | cons b rest =>
        simp only [hb]
        obtain ⟨r, h1, h2, h3, h4⟩ :=
          slave_flow_trace env cfg (b :: rest) sd 0 [] {}
        exact h4

/-- Counterexample to C2 as stated: two ranges search bases are
configured, yet the run searches only ranges base 0 — base 1 is never
searched (`ipa_subdomains_handler_ranges_done` never advances the cursor
or issues another ranges search), and the single search's results are
parsed immediately. -/
theorem c2_ranges_not_iterated :
    demo_cfg.ranges_search_bases.length = 2
    ∧ (ipa_subdomains_handler demo_cfg demo_env demo_sd).2.searches
      = [(.slave, 0), (.ranges, 0), (.master, 0), (.master, 1)]
    ∧ (IpaReqType.ranges, 1) ∉
        (ipa_subdomains_handler demo_cfg demo_env demo_sd).2.searches := by
  refine ⟨?_, ?_, ?_⟩ <;> decide

/-- C2 (amended): for every configuration and environment, a run issues at
most one ranges search, and it targets ranges search base 0 (cursor reset
to 0 on the slave-to-ranges transition); every persisted range list is
the parse of that single search's own results — there is no accumulation
across ranges search bases. -/
theorem c2_single_ranges_search (cfg : IpaConfig) (env : Env)
    (sd : IpaSubdomainsCtx) :
    (ranges_searches_of (ipa_subdomains_handler cfg env sd).2.searches = []
     ∨ ranges_searches_of (ipa_subdomains_handler cfg env sd).2.searches
       = [(IpaReqType.ranges, 0)])
    ∧ ∀ rl ∈ (ipa_subdomains_handler cfg env sd).2.range_stores,
        ∃ rep, env.search .ranges 0 = .ok rep
          ∧ ipa_ranges_parse_results rep = .ok rl := by
  unfold ipa_subdomains_handler
  by_cases hgate : sd.last_refreshed > env.now - IPA_SUBDOMAIN_REFRESH_LIMIT
  · rw [if_pos hgate]
    exact ⟨Or.inl rfl, by simp [Trace.addReply]⟩
  · rw [if_neg hgate]
    cases hc : env.connect with
    | error pe =>
      obtain ⟨dp, e⟩ := pe
      simp only [hc]
      exact ⟨Or.inl rfl, by simp [Trace.addReply]⟩
    | ok u =>
      simp only [hc]
      cases hb : cfg.search_bases with
      | nil =>
        simp only [hb]
        exact ⟨Or.inl rfl, by simp⟩
      | cons b rest =>
        simp only [hb]
        obtain ⟨r, h1, h2, h3, h4⟩ :=
          slave_flow_trace env cfg (b :: rest) sd 0 [] {}
        constructor
        · rcases h2 with h2 | h2
          · exact Or.inl (by rw [h2]; rfl)
          · exact Or.inr (by rw [h2]; rfl)
        · intro rl hmem
          rcases h3 with h3 | h3
          · rw [h3] at hmem
            simp at hmem
          · obtain ⟨rep, rl1, ha, hb1, hc1⟩ := h3
            rw [hc1] at hmem
            simp at hmem
            subst hmem
            exact ⟨rep, ha, hb1⟩

/-- Witness for C2 (amended): in the benign demo run one range list is
persisted, and it is the parse of the single ranges search at base 0. -/
theorem c2_single_ranges_search_witness :
    [({ name := "R1", base_id := 1000 } : RangeInfo)] ∈
        (ipa_subdomains_handler demo_cfg demo_env demo_sd).2.range_stores
    ∧ ∃ rep, demo_env.search .ranges 0 = .ok rep
        ∧ ipa_ranges_parse_results rep =
            .ok [({ name := "R1", base_id := 1000 } : RangeInfo)] :=
  ⟨by decide,
    (c2_single_ranges_search demo_cfg demo_env demo_sd).2
      [({ name := "R1", base_id := 1000 } : RangeInfo)] (by decide)⟩

/-- C6: in the master-domain stage, whenever the current search base's
result set is non-empty (after any number of empty bases were skipped),
the persisted Master Domain Info takes its flat name and identifier from
the first result, its name is filled from the backend context's domain
name, and the run terminates with a success reply. -/
theorem c6_master_first_result (env : Env) (idx : Nat) (b : SearchBase)
    (rest : List SearchBase) (tr : Trace) (r0 : SysdbAttrs)
    (rs : List SysdbAttrs) (fv sv : String)
    (hs : env.search .master idx = .ok (r0 :: rs))
    (hf : r0.flatName = some fv) (hsid : r0.sid = some sv)
    (hadd : env.master_add_info = .eok) :
    (ipa_subdomains_master_flow env idx (b :: rest) tr).master_stores
      = tr.master_stores ++
          [{ name := some env.dom_name, realm := none,
             flat_name := some fv, id := some sv }]
    ∧ (ipa_subdomains_master_flow env idx (b :: rest) tr).replies
      = tr.replies ++ [⟨.dpOk, .eok⟩] := by
  unfold ipa_subdomains_master_flow
  simp only [hs, hf, hsid]
  constructor <;>
    simp [hadd, Trace.addSearch, Trace.addMasterStore, Trace.addReply,
      sysdb_master_domain_add_info]

/-- Witness for C6: in the demo environment master base 0 is empty and
base 1 yields a record with flat name `MD` and SID `MS`; applying the
theorem at index 1 gives the persisted record (name filled from the
context domain name) and the success reply. -/
theorem c6_master_first_result_witness :
    demo_env.search .master 1 = .ok [demo_master_attr]
    ∧ ((ipa_subdomains_master_flow demo_env 1 [demo_base] {}).master_stores
        = [{ name := some "ipa.example", realm := none,
               flat_name := some "MD", id := some "MS" }]
      ∧ (ipa_subdomains_master_flow demo_env 1 [demo_base] {}).replies
        = [⟨.dpOk, .eok⟩]) :=
  ⟨rfl,
    c6_master_first_result demo_env 1 demo_base [] {} demo_master_attr []
      "MD" "MS" rfl rfl rfl rfl⟩
